import Mathlib

/-!
Verification of the auto-tag scripts (`src/auto-tag/main.py` and
`src/auto-tag/github_helpers.py`): a shallow embedding of the version
model, tag resolution, bump-strategy selection and the tag-reconciliation
pipeline, together with theorems settling the specification's claims.

Python strings are modelled as `List Char`; the remote GitHub API calls
are modelled as an explicit list of effects emitted by the pipeline.
-/

/-- Python strings are modelled as lists of characters. -/
abbrev Str := List Char

/-- Python `str.removeprefix`: drop `p` from the front of `s` when `s`
starts with `p`, otherwise return `s` unchanged. -/
def dropPre (p s : Str) : Str :=
  if p.isPrefixOf s then s.drop p.length else s

/-- Python `str.removesuffix`: drop `suf` from the end of `s` when `s`
ends with `suf`, otherwise return `s` unchanged. -/
def dropSuf (suf s : Str) : Str :=
  if suf.isSuffixOf s then s.take (s.length - suf.length) else s

/-- Python `str.split(".")` on a character list: the (always nonempty)
list of dot-free chunks of `s`. -/
def splitDots : Str → List Str
  | [] => [[]]
  | c :: cs =>
    match splitDots cs with
    | [] => [[]]
    | w :: ws => if c = '.' then [] :: w :: ws else (c :: w) :: ws

/-- Inverse of `splitDots`: interleave the chunks with dots. -/
def joinDots : List Str → Str
  | [] => []
  | [w] => w
  | w :: ws => w ++ '.' :: joinDots ws

/-- Decimal value of a digit string (big-endian), as Python `int(s)` on an
all-digit string. -/
def charsToNat (s : Str) : Nat :=
  s.foldl (fun a c => a * 10 + (c.toNat - 48)) 0

/-- Fuel-driven worker for `natChars`; `fuel > n` guarantees the fuel is
never exhausted. -/
def natCharsAux : Nat → Nat → Str
  | 0, _ => []
  | fuel + 1, n =>
    if n < 10 then [Nat.digitChar n]
    else natCharsAux fuel (n / 10) ++ [Nat.digitChar (n % 10)]

/-- Decimal rendering of a natural number, as Python `str(n)`. -/
def natChars (n : Nat) : Str := natCharsAux (n + 1) n

/-- Nonempty all-digit string: the shape of one numeric component of a
version string. -/
def isIntChars (s : Str) : Bool := !s.isEmpty && s.all (fun c => c.isDigit)

/-- Semantic version as a triple of non-negative integers.
Modelled from the spec: the third-party `semver` library's `Version`
value (the repository imports the library; its code is not in `src/`).
The spec's Version Model is the triple `(major, minor, patch)`. -/
structure Version where
  major : Nat
  minor : Nat
  patch : Nat
deriving DecidableEq, Repr

/-- Modelled from the spec: `semver.Version.bump_major` — `(major+1, 0, 0)`. -/
def Version.bump_major (v : Version) : Version := ⟨v.major + 1, 0, 0⟩

/-- Modelled from the spec: `semver.Version.bump_minor` — `(major, minor+1, 0)`. -/
def Version.bump_minor (v : Version) : Version := ⟨v.major, v.minor + 1, 0⟩

/-- Modelled from the spec: `semver.Version.bump_patch` — `(major, minor, patch+1)`. -/
def Version.bump_patch (v : Version) : Version := ⟨v.major, v.minor, v.patch + 1⟩

/-- Serialization of a version, as Python `str(version)`:
`"{major}.{minor}.{patch}"`. -/
def formatVersion (v : Version) : Str :=
  natChars v.major ++ '.' :: (natChars v.minor ++ '.' :: natChars v.patch)

/-- Modelled from the spec: `semver.Version.parse` (the library's code is
not in `src/`); per spec §4.1 the residual must be exactly three
non-negative integer components separated by dots, anything else fails
with `InvalidVersionFormat` (here: `none`). -/
def parseVersion (s : Str) : Option Version :=
  match splitDots s with
  | [a, b, c] =>
    if isIntChars a && isIntChars b && isIntChars c then
      some ⟨charsToNat a, charsToNat b, charsToNat c⟩
    else none
  | _ => none

/-- Modelled from the spec: `semver.VersionInfo.is_valid` — whether a
string parses as a full version. -/
def isValidSemver (s : Str) : Bool := (parseVersion s).isSome

/-- Lexicographic order on versions, from the spec's data model ("total
order defined by lexicographic comparison on (major, minor, patch)"). -/
def versionLe (v w : Version) : Prop :=
  v.major < w.major ∨
    (v.major = w.major ∧
      (v.minor < w.minor ∨ (v.minor = w.minor ∧ v.patch ≤ w.patch)))

/- ## Basic lemmas about the string machinery -/

theorem splitDots_ne_nil (s : Str) : splitDots s ≠ [] := by
  cases s with
  | nil => simp [splitDots]
  | cons c cs =>
    simp only [splitDots]
    cases splitDots cs with
    | nil => simp
    | cons w ws =>
      by_cases h : c = '.' <;> simp [h]

theorem splitDots_append_dot (a rest : Str) (ha : ∀ c ∈ a, c ≠ '.') :
    splitDots (a ++ '.' :: rest) = a :: splitDots rest := by
  induction a with
  | nil =>
    simp only [List.nil_append, splitDots]
    cases hs : splitDots rest with
    | nil => exact absurd hs (splitDots_ne_nil rest)
    | cons w ws => simp
  | cons c a' ih =>
    have hc : c ≠ '.' := ha c (by simp)
    have ih' := ih (fun x hx => ha x (by simp [hx]))
    simp only [List.cons_append, splitDots, List.append_eq]
    rw [ih']
    simp [hc]

theorem splitDots_no_dot (a : Str) (ha : ∀ c ∈ a, c ≠ '.') :
    splitDots a = [a] := by
  induction a with
  | nil => simp [splitDots]
  | cons c a' ih =>
    have hc : c ≠ '.' := ha c (by simp)
    have ih' := ih (fun x hx => ha x (by simp [hx]))
    simp only [splitDots, ih', if_neg hc]

theorem joinDots_cons_cons (w : Str) (x : Str) (xs : List Str) :
    joinDots (w :: x :: xs) = w ++ '.' :: joinDots (x :: xs) := rfl

theorem joinDots_splitDots (s : Str) : joinDots (splitDots s) = s := by
  induction s with
  | nil => simp [splitDots, joinDots]
  | cons c cs ih =>
    simp only [splitDots]
    cases hs : splitDots cs with
    | nil => exact absurd hs (splitDots_ne_nil cs)
    | cons w ws =>
      rw [hs] at ih
      by_cases h : c = '.'
      · subst h
        simp only [if_pos rfl, joinDots_cons_cons, List.nil_append]
        exact congrArg (List.cons '.') ih
      · simp only [if_neg h]
        cases ws with
        | nil =>
          simp only [joinDots] at ih ⊢
          exact congrArg (List.cons c) ih
        | cons x xs =>
          rw [joinDots_cons_cons] at ih
          rw [joinDots_cons_cons, List.cons_append]
          exact congrArg (List.cons c) ih

theorem isPrefixOf_append_self (p r : Str) : p.isPrefixOf (p ++ r) = true := by
  induction p with
  | nil => simp [List.isPrefixOf]
  | cons a as ih => simp [List.isPrefixOf, ih]

theorem dropPre_append (p r : Str) : dropPre p (p ++ r) = r := by
  simp [dropPre, isPrefixOf_append_self, List.drop_left]

theorem isSuffixOf_append_self (suf r : Str) :
    suf.isSuffixOf (r ++ suf) = true := by
  simp [List.isSuffixOf]

theorem dropSuf_append (suf r : Str) : dropSuf suf (r ++ suf) = r := by
  simp only [dropSuf, isSuffixOf_append_self, if_pos]
  rw [List.length_append, Nat.add_sub_cancel, List.take_left]

/-- Stripping the configured wrapper from a wrapped body recovers the body. -/
theorem strip_wrap (p suf body : Str) :
    dropSuf suf (dropPre p (p ++ body ++ suf)) = body := by
  rw [List.append_assoc, dropPre_append, dropSuf_append]

/- ## Decimal rendering round-trip -/

theorem charsToNat_append_singleton (s : Str) (c : Char) :
    charsToNat (s ++ [c]) = charsToNat s * 10 + (c.toNat - 48) := by
  simp [charsToNat, List.foldl_append]

theorem digitChar_toNat (d : Nat) (h : d < 10) :
    (Nat.digitChar d).toNat = d + 48 := by
  interval_cases d <;> decide

theorem digitChar_isDigit (d : Nat) (h : d < 10) :
    (Nat.digitChar d).isDigit = true := by
  interval_cases d <;> decide

theorem isDigit_ne_dot (c : Char) (h : c.isDigit = true) : c ≠ '.' := by
  intro heq
  rw [heq] at h
  exact absurd h (by decide)

theorem natCharsAux_spec (fuel : Nat) : ∀ n, n < fuel →
    natCharsAux fuel n ≠ [] ∧
    (∀ c ∈ natCharsAux fuel n, c.isDigit = true) ∧
    charsToNat (natCharsAux fuel n) = n := by
  induction fuel with
  | zero => intro n hn; omega
  | succ fuel ih =>
    intro n hn
    by_cases h : n < 10
    · refine ⟨by simp [natCharsAux, h], ?_, ?_⟩
      · intro c hc
        simp only [natCharsAux, if_pos h, List.mem_singleton] at hc
        subst hc
        exact digitChar_isDigit n h
      · simp only [natCharsAux, if_pos h]
        show charsToNat [Nat.digitChar n] = n
        simp [charsToNat, digitChar_toNat n h]
    · have hdiv : n / 10 < n := Nat.div_lt_self (by omega) (by omega)
      have hfuel : n / 10 < fuel := by omega
      obtain ⟨hne, hdig, hval⟩ := ih (n / 10) hfuel
      refine ⟨?_, ?_, ?_⟩
      · simp [natCharsAux, if_neg h]
      · intro c hc
        simp only [natCharsAux, if_neg h, List.mem_append, List.mem_singleton] at hc
        rcases hc with hc | hc
        · exact hdig c hc
        · subst hc
          exact digitChar_isDigit (n % 10) (Nat.mod_lt n (by omega))
      · simp only [natCharsAux, if_neg h]
        rw [charsToNat_append_singleton, hval,
          digitChar_toNat (n % 10) (Nat.mod_lt n (by omega))]
        omega

theorem natChars_ne_nil (n : Nat) : natChars n ≠ [] :=
  (natCharsAux_spec (n + 1) n (Nat.lt_succ_self n)).1

theorem natChars_all_digit (n : Nat) : ∀ c ∈ natChars n, c.isDigit = true :=
  (natCharsAux_spec (n + 1) n (Nat.lt_succ_self n)).2.1

theorem charsToNat_natChars (n : Nat) : charsToNat (natChars n) = n :=
  (natCharsAux_spec (n + 1) n (Nat.lt_succ_self n)).2.2

theorem natChars_no_dot (n : Nat) : ∀ c ∈ natChars n, c ≠ '.' :=
  fun c hc => isDigit_ne_dot c (natChars_all_digit n c hc)

theorem isIntChars_natChars (n : Nat) : isIntChars (natChars n) = true := by
  simp only [isIntChars, Bool.and_eq_true, List.all_eq_true]
  constructor
  · cases hn : natChars n with
    | nil => exact absurd hn (natChars_ne_nil n)
    | cons c cs => simp [List.isEmpty]
  · exact natChars_all_digit n

theorem splitDots_formatVersion (v : Version) :
    splitDots (formatVersion v) =
      [natChars v.major, natChars v.minor, natChars v.patch] := by
  unfold formatVersion
  rw [splitDots_append_dot _ _ (natChars_no_dot v.major),
    splitDots_append_dot _ _ (natChars_no_dot v.minor),
    splitDots_no_dot _ (natChars_no_dot v.patch)]

/-- Parsing the serialization of a version recovers the version. -/
theorem parseVersion_formatVersion (v : Version) :
    parseVersion (formatVersion v) = some v := by
  simp only [parseVersion, splitDots_formatVersion, isIntChars_natChars,
    Bool.and_self, if_pos, charsToNat_natChars]

theorem isValidSemver_formatVersion (v : Version) :
    isValidSemver (formatVersion v) = true := by
  simp [isValidSemver, parseVersion_formatVersion]

/-- Parsing a wrapped serialization after stripping the same wrapper
recovers the version. -/
theorem parseVersion_strip_wrap (p suf : Str) (v : Version) :
    parseVersion (dropSuf suf (dropPre p (p ++ formatVersion v ++ suf))) =
      some v := by
  rw [strip_wrap, parseVersion_formatVersion]

/-- Successful parses only happen on three dot-separated integer chunks. -/
theorem parseVersion_some_shape (s : Str) (w : Version)
    (h : parseVersion s = some w) :
    ∃ a b c, s = a ++ '.' :: (b ++ '.' :: c) ∧
      isIntChars a = true ∧ isIntChars b = true ∧ isIntChars c = true := by
  unfold parseVersion at h
  split at h
  · next a b c hs =>
    split at h
    · next hint =>
      simp only [Bool.and_eq_true] at hint
      refine ⟨a, b, c, ?_, hint.1.1, hint.1.2, hint.2⟩
      have hj := joinDots_splitDots s
      rw [hs] at hj
      simpa [joinDots] using hj.symm
    · exact absurd h (by simp)
  · exact absurd h (by simp)

/- ## Data model of the scripts -/

/-- Python's substring test `needle in hay`. -/
def containsSub (needle : Str) : Str → Bool
  | [] => needle.isEmpty
  | c :: rest => needle.isPrefixOf (c :: rest) || containsSub needle rest

/-- Enum `BumpStrategy` from `main.py`: the different version bump
strategies for semver, in declaration order major, minor, patch, skip. -/
inductive BumpStrategy where
  | major
  | minor
  | patch
  | skip
deriving DecidableEq, Repr, Fintype

/-- String value of each enum member (`BumpStrategy.MAJOR.value == "major"`
and so on). -/
def strategyValue : BumpStrategy → Str
  | BumpStrategy.major => ("major".toList)
  | BumpStrategy.minor => ("minor".toList)
  | BumpStrategy.patch => ("patch".toList)
  | BumpStrategy.skip => ("skip".toList)

/-- Iteration order of `[strategy.value for strategy in BumpStrategy]`. -/
def strategiesInOrder : List BumpStrategy :=
  [BumpStrategy.major, BumpStrategy.minor, BumpStrategy.patch,
    BumpStrategy.skip]

/-- Dataclass `Tag` from `main.py` / `github_helpers.py`. The `date`
field is omitted: it only feeds the commits-since watermark, and the
commit window is supplied to the embedding directly as a message list. -/
structure Tag where
  name : Str
  commit : Str
  message : Str := []
  type : Str := ("commit".toList)
deriving DecidableEq, Repr

/-- A tag as returned by the remote listing (`repository.get_tags()`):
the scripts read `tag.name`, `tag.commit.sha` and
`tag.commit.commit.message`. -/
structure RemoteTag where
  name : Str
  commitSha : Str
  message : Str := []
deriving DecidableEq, Repr

/-- Dataclass `Configuration` from `main.py` (the fields the core logic
reads). `PRE` and `SUF` stand for the Python fields `PREFIX` and
`SUFFIX`. -/
structure Configuration where
  BIND_TO_MAJOR : Bool := true
  DEFAULT_BUMP_STRATEGY : BumpStrategy := BumpStrategy.skip
  DEFAULT_BRANCH : Str := ("main".toList)
  PRE : Str := ("test-v".toList)
  SUF : Str := []
  DRY_RUN : Bool := false
deriving DecidableEq, Repr

/-- Shared guard of the tag scans: the tag name starts with the
configured `PREFIX`, ends with the configured `SUFFIX`, and its stripped
middle is (for the version scan) a valid semver body. -/
def versionTagMatch (cfg : Configuration) (name : Str) : Bool :=
  cfg.PRE.isPrefixOf name && cfg.SUF.isSuffixOf name &&
    isValidSemver (dropSuf cfg.SUF (dropPre cfg.PRE name))

/-- Guard of the major-pointer scans: matching wrapper, but the stripped
middle does not parse as a full version. -/
def majorTagMatch (cfg : Configuration) (name : Str) : Bool :=
  cfg.PRE.isPrefixOf name && cfg.SUF.isSuffixOf name &&
    !isValidSemver (dropSuf cfg.SUF (dropPre cfg.PRE name))

/- ## Functions from `main.py` -/

/-- Function `get_latest_tag_or_default` of `main.py`: scan the remote
tag list (supplied most-recent-first) and return the first tag matching
the configured wrapper with a valid semver body, breaking at the first
hit; when none matches, return the synthetic `PREFIX + "0.0.0" + SUFFIX`
tag pointing at the repository's current HEAD commit and mutate the
shared configuration's `DEFAULT_BUMP_STRATEGY` to `PATCH` ("Force
creation of a new tag"). The mutated configuration is returned
explicitly. -/
def get_latest_tag_or_default (cfg : Configuration)
    (repoTags : List RemoteTag) (headSha : Str) : Tag × Configuration :=
  match repoTags.find? (fun t => versionTagMatch cfg t.name) with
  | some t => (⟨t.name, t.commitSha, [], ("commit".toList)⟩, cfg)
  | none =>
    (⟨cfg.PRE ++ ("0.0.0".toList) ++ cfg.SUF, headSha, [],
        ("commit".toList)⟩,
      { cfg with DEFAULT_BUMP_STRATEGY := BumpStrategy.patch })

/-- Function `check_bump_strategy_since_last_tag` of `main.py`: for each
commit since the last tag (outer loop, commits supplied as their message
strings) and each strategy value in enum order (inner loop), return the
first strategy whose marker `"[#" + strategy.lower() + "]"` occurs in
the commit message; `.lower()` is applied to the (already lowercase)
strategy value, not to the message. Fall back to the configuration's
`DEFAULT_BUMP_STRATEGY`. -/
def check_bump_strategy_since_last_tag (cfg : Configuration)
    (msgs : List Str) : BumpStrategy :=
  match msgs.findSome? (fun m =>
      strategiesInOrder.find? (fun s =>
        containsSub (("[#".toList) ++ (strategyValue s) ++ ("]".toList)) m)) with
  | some s => s
  | none => cfg.DEFAULT_BUMP_STRATEGY

/-- Marker string checked for a strategy, for stating theorems. -/
def markerFor (s : BumpStrategy) : Str :=
  ("[#".toList) ++ (strategyValue s) ++ ("]".toList)

/-- Function `bump_tag_version` of `main.py`: parse the stripped name of
the last available tag (a parse failure raises, modelled as `none`),
apply the bump selected by the strategy (any strategy other than
MAJOR/MINOR/PATCH leaves the version unchanged), and return a new `Tag`
named `PREFIX + str(new_version) + SUFFIX` pointing at the `GITHUB_SHA`
environment commit. -/
def bump_tag_version (cfg : Configuration) (strategy : BumpStrategy)
    (last_available_tag : Tag) (githubSha : Str) : Option Tag :=
  match parseVersion
      (dropSuf cfg.SUF (dropPre cfg.PRE last_available_tag.name)) with
  | none => none
  | some current_version =>
    let new_version :=
      if strategy = BumpStrategy.major then current_version.bump_major
      else if strategy = BumpStrategy.minor then current_version.bump_minor
      else if strategy = BumpStrategy.patch then current_version.bump_patch
      else current_version
    some ⟨cfg.PRE ++ formatVersion new_version ++ cfg.SUF, githubSha, [],
      ("commit".toList)⟩

/- ## Functions from `github_helpers.py` -/

/-- Method `GitHubHelper.get_latest_tag`: scan the remote tag list for a
tag matching the wrapper with a valid semver body, breaking at the FIRST
hit; fallback is the synthetic `PREFIX + "0.0.0" + SUFFIX` tag at the
last commit. -/
def get_latest_tag (cfg : Configuration) (repoTags : List RemoteTag)
    (headSha : Str) : Tag :=
  match repoTags.find? (fun t => versionTagMatch cfg t.name) with
  | some t => ⟨t.name, t.commitSha, t.message, ("commit".toList)⟩
  | none =>
    ⟨cfg.PRE ++ ("0.0.0".toList) ++ cfg.SUF, headSha, [], ("commit".toList)⟩

/-- Method `GitHubHelper.get_latest_major_tag`: same scan but keeping
tags whose stripped middle is NOT a valid full version, with no `break`
— the loop keeps overwriting the local, so the LAST iterated match wins;
fallback is the synthetic `PREFIX + "0" + SUFFIX` tag at the last
commit. -/
def get_latest_major_tag (cfg : Configuration) (repoTags : List RemoteTag)
    (headSha : Str) : Tag :=
  match repoTags.foldl
      (fun acc t =>
        if majorTagMatch cfg t.name then
          some (⟨t.name, t.commitSha, t.message, ("commit".toList)⟩ : Tag)
        else acc)
      none with
  | some t => t
  | none =>
    ⟨cfg.PRE ++ ("0".toList) ++ cfg.SUF, headSha, [], ("commit".toList)⟩

/- ## The module-level pipeline of `main.py` as an effect trace -/

/-- Remote mutations performed by the script, in order: annotated
tag-object creation (`repo.create_git_tag`), ref creation
(`repo.create_git_ref` for `refs/tags/<name>`), and ref deletion (the
raw HTTP DELETE on `git/refs/tags/<name>`). -/
inductive Effect where
  | createTagObject (name target : Str)
  | createRef (name target : Str)
  | deleteRef (name : Str)
deriving DecidableEq, Repr

/-- Condition of the major-pointer repoint loop in `main.py` (lines
167-175): wrapper matches, the name differs from the last version tag's
name, and the stripped middle is not a valid semver body. -/
def repointCandidate (cfg : Configuration) (lastTagName : Str)
    (t : RemoteTag) : Bool :=
  cfg.PRE.isPrefixOf t.name && cfg.SUF.isSuffixOf t.name &&
    t.name ≠ lastTagName &&
    !isValidSemver (dropSuf cfg.SUF (dropPre cfg.PRE t.name))

/-- The module-level script of `main.py` as a pure function from its
inputs to the ordered list of remote mutations it performs. Inputs:
`refName` is `GITHUB_REF_NAME`, `repoTags` the remote tag listing
(most-recent-first), `headSha` the sha of `repository.get_commits()[0]`,
`githubSha` the `GITHUB_SHA` environment value, `tagObjSha` the sha the
remote API returns for the created version tag object, `msgs` the
messages of the commits since the last tag. Result `none` models an
uncaught exception (a version-parse failure); `some effects` a normal
exit. Reads (commit lookups for the tagger identity) are not effects. -/
def runScript (cfg : Configuration) (refName : Str)
    (repoTags : List RemoteTag) (headSha githubSha tagObjSha : Str)
    (msgs : List Str) : Option (List Effect) :=
  if refName ≠ cfg.DEFAULT_BRANCH then some []
  else
    let resolved := get_latest_tag_or_default cfg repoTags headSha
    let last_tag := resolved.1
    let cfg := resolved.2
    let bump_strategy := check_bump_strategy_since_last_tag cfg msgs
    if bump_strategy = BumpStrategy.skip then some []
    else
      match bump_tag_version cfg bump_strategy last_tag githubSha with
      | none => none
      | some new_tag =>
        let created : List Effect :=
          [Effect.createTagObject new_tag.name new_tag.commit]
        if cfg.DRY_RUN then some created
        else
          let withRef :=
            created ++ [Effect.createRef new_tag.name tagObjSha]
          if cfg.BIND_TO_MAJOR then
            if bump_strategy ≠ BumpStrategy.major then
              some (withRef ++
                (repoTags.filter (repointCandidate cfg last_tag.name)).flatMap
                  (fun t =>
                    [Effect.deleteRef t.name,
                      Effect.createRef t.name githubSha]))
            else
              match parseVersion
                  (dropSuf cfg.SUF (dropPre cfg.PRE new_tag.name)) with
              | none => none
              | some v =>
                let new_major_tag :=
                  cfg.PRE ++ natChars (v.major + 1) ++ cfg.SUF
                some (withRef ++
                  [Effect.createTagObject new_major_tag new_tag.commit,
                    Effect.createRef new_major_tag new_tag.commit])
          else some withRef

/-- Strategy the pipeline actually selects: the commit-marker scan run
against the configuration as (possibly) mutated by the tag resolver. -/
def selectedStrategy (cfg : Configuration) (repoTags : List RemoteTag)
    (headSha : Str) (msgs : List Str) : BumpStrategy :=
  check_bump_strategy_since_last_tag
    (get_latest_tag_or_default cfg repoTags headSha).2 msgs

/- ## Helper lemmas about the embedded functions -/

/-- A fold that overwrites its accumulator on matches is unchanged over a
list with no match. -/
theorem foldl_overwrite_no_match {α β : Type} (p : α → Bool) (g : α → β)
    (l : List α) (a : Option β) (h : ∀ u ∈ l, p u = false) :
    l.foldl (fun acc t => if p t then some (g t) else acc) a = a := by
  induction l generalizing a with
  | nil => rfl
  | cons x xs ih =>
    have hx : p x = false := h x (by simp)
    simp only [List.foldl_cons, hx, Bool.false_eq_true, if_neg]
    exact ih a (fun u hu => h u (by simp [hu]))

/-- The marker scan returns the configured default when no commit message
contains any strategy marker. -/
theorem check_eq_default (cfg : Configuration) (msgs : List Str)
    (h : ∀ m ∈ msgs, ∀ s, containsSub (markerFor s) m = false) :
    check_bump_strategy_since_last_tag cfg msgs =
      cfg.DEFAULT_BUMP_STRATEGY := by
  unfold check_bump_strategy_since_last_tag
  have hnone : msgs.findSome? (fun m =>
      strategiesInOrder.find? (fun s =>
        containsSub (("[#".toList) ++ (strategyValue s) ++ ("]".toList)) m)) =
      none := by
    rw [List.findSome?_eq_none_iff]
    intro m hm
    rw [List.find?_eq_none]
    intro s _
    have := h m hm s
    simpa [markerFor] using this
  rw [hnone]

/-- The marker scan returns the strategy of the first commit containing a
marker, when that commit contains only that one strategy's marker. -/
theorem check_eq_of_first_marked (cfg : Configuration) (pre : List Str)
    (m : Str) (post : List Str) (s : BumpStrategy)
    (hpre : ∀ m' ∈ pre, ∀ s', containsSub (markerFor s') m' = false)
    (hm : containsSub (markerFor s) m = true)
    (hother : ∀ s', s' ≠ s → containsSub (markerFor s') m = false) :
    check_bump_strategy_since_last_tag cfg (pre ++ m :: post) = s := by
  unfold check_bump_strategy_since_last_tag
  have hfind : (pre ++ m :: post).findSome? (fun m' =>
      strategiesInOrder.find? (fun st =>
        containsSub (("[#".toList) ++ (strategyValue st) ++ ("]".toList)) m')) =
      some s := by
    induction pre with
    | nil =>
      simp only [List.nil_append, List.findSome?_cons]
      have hinner : strategiesInOrder.find? (fun st =>
          containsSub (("[#".toList) ++ (strategyValue st) ++ ("]".toList)) m) =
          some s := by
        cases s with
        | major =>
          simp [markerFor] at hm
          simp [strategiesInOrder, List.find?, hm]
        | minor =>
          have h1 := hother BumpStrategy.major (by simp)
          simp [markerFor] at h1 hm
          simp [strategiesInOrder, List.find?, h1, hm]
        | patch =>
          have h1 := hother BumpStrategy.major (by simp)
          have h2 := hother BumpStrategy.minor (by simp)
          simp [markerFor] at h1 h2 hm
          simp [strategiesInOrder, List.find?, h1, h2, hm]
        | skip =>
          have h1 := hother BumpStrategy.major (by simp)
          have h2 := hother BumpStrategy.minor (by simp)
          have h3 := hother BumpStrategy.patch (by simp)
          simp [markerFor] at h1 h2 h3 hm
          simp [strategiesInOrder, List.find?, h1, h2, h3, hm]
      rw [hinner]
    | cons x xs ih =>
      have hx : strategiesInOrder.find? (fun st =>
          containsSub (("[#".toList) ++ (strategyValue st) ++ ("]".toList)) x) =
          none := by
        rw [List.find?_eq_none]
        intro st _
        have := hpre x (by simp) st
        simpa [markerFor] using this
      have ih' := ih (fun m' hm' s' => hpre m' (by simp [hm']) s')
      simp only [List.cons_append, List.findSome?_cons, hx]
      exact ih'
  rw [hfind]

/-- When the strategy the pipeline selects is SKIP, the script exits
right after the strategy check and performs no remote mutation. -/
theorem runScript_of_skip (cfg : Configuration) (refName : Str)
    (repoTags : List RemoteTag) (headSha githubSha tagObjSha : Str)
    (msgs : List Str)
    (h : selectedStrategy cfg repoTags headSha msgs = BumpStrategy.skip) :
    runScript cfg refName repoTags headSha githubSha tagObjSha msgs =
      some [] := by
  unfold runScript
  by_cases hbr : refName ≠ cfg.DEFAULT_BRANCH
  · rw [if_pos hbr]
  · rw [if_neg hbr]
    have hsel : check_bump_strategy_since_last_tag
        (get_latest_tag_or_default cfg repoTags headSha).2 msgs =
        BumpStrategy.skip := h
    simp [hsel]

/-- Claim C3: if the selected bump strategy is SKIP, the run performs no
tag operations (no tag object, no ref creation or deletion) and
terminates successfully, as a normal outcome rather than an error. -/
theorem C3_skip_is_clean_success (cfg : Configuration) (refName : Str)
    (repoTags : List RemoteTag) (headSha githubSha tagObjSha : Str)
    (msgs : List Str)
    (h : selectedStrategy cfg repoTags headSha msgs = BumpStrategy.skip) :
    runScript cfg refName repoTags headSha githubSha tagObjSha msgs =
      some [] :=
  runScript_of_skip cfg refName repoTags headSha githubSha tagObjSha msgs h

/-- Shared concrete configuration for witnesses: wrapper `v`/`` on the
`main` branch, major binding on, dry-run off. -/
def cfgV : Configuration :=
  { BIND_TO_MAJOR := true, DEFAULT_BUMP_STRATEGY := BumpStrategy.skip,
    DEFAULT_BRANCH := ("main".toList), PRE := ("v".toList), SUF := [],
    DRY_RUN := false }

/-- Witness for C3: with a `v1.4.2` tag present, no commit markers, and
default strategy SKIP (Scenario E), the run makes no tag operation. -/
theorem C3_skip_is_clean_success_witness :
    runScript cfgV ("main".toList)
      [⟨("v1.4.2".toList), ("c0".toList), []⟩] ("h0".toList) ("g0".toList)
      ("t0".toList) [("plain message".toList)] = some [] :=
  C3_skip_is_clean_success cfgV ("main".toList)
    [⟨("v1.4.2".toList), ("c0".toList), []⟩] ("h0".toList) ("g0".toList)
    ("t0".toList) [("plain message".toList)] (by decide)

/-- Claim C4: when no listed tag matches the wrapper with a valid semver
body, the resolver returns the synthetic `PREFIX + "0.0.0" + SUFFIX` tag
pointing at the current HEAD commit; consequently, with prefix `v`,
suffix ``, an empty tag list and default strategy PATCH, the computed
next tag is `v0.0.1`. -/
theorem C4_synthetic_zero_tag (cfg : Configuration)
    (repoTags : List RemoteTag) (headSha : Str)
    (h : ∀ t ∈ repoTags, versionTagMatch cfg t.name = false) :
    (get_latest_tag_or_default cfg repoTags headSha).1 =
      ⟨cfg.PRE ++ ("0.0.0".toList) ++ cfg.SUF, headSha, [],
        ("commit".toList)⟩ ∧
    bump_tag_version
        { cfgV with DEFAULT_BUMP_STRATEGY := BumpStrategy.patch }
        BumpStrategy.patch
        (get_latest_tag_or_default
          { cfgV with DEFAULT_BUMP_STRATEGY := BumpStrategy.patch } []
          ("head0".toList)).1
        ("sha0".toList) =
      some ⟨("v0.0.1".toList), ("sha0".toList), [], ("commit".toList)⟩ := by
  constructor
  · have hfind : repoTags.find? (fun t => versionTagMatch cfg t.name) =
        none := by
      rw [List.find?_eq_none]
      intro t ht
      simp [h t ht]
    unfold get_latest_tag_or_default
    rw [hfind]
  · decide

/-- Witness for C4: the empty tag list has no matching tag, and the
resolver indeed yields the synthetic zero tag at HEAD. -/
theorem C4_synthetic_zero_tag_witness :
    (get_latest_tag_or_default cfgV [] ("head1".toList)).1 =
      ⟨cfgV.PRE ++ ("0.0.0".toList) ++ cfgV.SUF, ("head1".toList), [],
        ("commit".toList)⟩ ∧
    bump_tag_version
        { cfgV with DEFAULT_BUMP_STRATEGY := BumpStrategy.patch }
        BumpStrategy.patch
        (get_latest_tag_or_default
          { cfgV with DEFAULT_BUMP_STRATEGY := BumpStrategy.patch } []
          ("head0".toList)).1
        ("sha0".toList) =
      some ⟨("v0.0.1".toList), ("sha0".toList), [], ("commit".toList)⟩ :=
  C4_synthetic_zero_tag cfgV [] ("head1".toList) (by decide)

/-- Claim C8: `bump_major` maps to `(major+1, 0, 0)`; `bump_minor` zeroes
the patch component; each of the three bumping strategies computes a
version that is ≥ the previous one with the bumped field incremented and
lower fields reset to zero; any other strategy leaves the version
unchanged. -/
theorem C8_bump_arithmetic :
    (∀ v : Version, v.bump_major = ⟨v.major + 1, 0, 0⟩) ∧
    (∀ v : Version, v.bump_minor = ⟨v.major, v.minor + 1, 0⟩ ∧
      v.bump_minor.patch = 0) ∧
    (∀ v : Version, versionLe v v.bump_major ∧ versionLe v v.bump_minor ∧
      versionLe v v.bump_patch) ∧
    (∀ (cfg : Configuration) (last : Tag) (gsha : Str) (v : Version),
      parseVersion (dropSuf cfg.SUF (dropPre cfg.PRE last.name)) = some v →
      bump_tag_version cfg BumpStrategy.major last gsha =
        some ⟨cfg.PRE ++ formatVersion ⟨v.major + 1, 0, 0⟩ ++ cfg.SUF,
          gsha, [], ("commit".toList)⟩ ∧
      bump_tag_version cfg BumpStrategy.minor last gsha =
        some ⟨cfg.PRE ++ formatVersion ⟨v.major, v.minor + 1, 0⟩ ++ cfg.SUF,
          gsha, [], ("commit".toList)⟩ ∧
      bump_tag_version cfg BumpStrategy.patch last gsha =
        some ⟨cfg.PRE ++ formatVersion ⟨v.major, v.minor, v.patch + 1⟩ ++
          cfg.SUF, gsha, [], ("commit".toList)⟩ ∧
      ∀ s : BumpStrategy, s ≠ BumpStrategy.major → s ≠ BumpStrategy.minor →
        s ≠ BumpStrategy.patch →
        bump_tag_version cfg s last gsha =
          some ⟨cfg.PRE ++ formatVersion v ++ cfg.SUF, gsha, [],
            ("commit".toList)⟩) := by
  refine ⟨fun v => rfl, fun v => ⟨rfl, rfl⟩, ?_, ?_⟩
  · intro v
    refine ⟨Or.inl (Nat.lt_succ_self v.major), ?_, ?_⟩
    · exact Or.inr ⟨rfl, Or.inl (Nat.lt_succ_self v.minor)⟩
    · exact Or.inr ⟨rfl, Or.inr ⟨rfl, Nat.le_succ v.patch⟩⟩
  · intro cfg last gsha v hp
    refine ⟨?_, ?_, ?_, ?_⟩
    · unfold bump_tag_version
      rw [hp]
      rfl
    · unfold bump_tag_version
      rw [hp]
      rfl
    · unfold bump_tag_version
      rw [hp]
      rfl
    · intro s h1 h2 h3
      unfold bump_tag_version
      rw [hp]
      simp only [if_neg h1, if_neg h2, if_neg h3]

/-- Witness for C8: the version-level facts at `1.4.2` and the
tag-level facts on the concrete tag `v1.4.2` with strategy SKIP. -/
theorem C8_bump_arithmetic_witness :
    Version.bump_major ⟨1, 4, 2⟩ = ⟨2, 0, 0⟩ ∧
    bump_tag_version cfgV BumpStrategy.skip
        ⟨("v1.4.2".toList), ("c0".toList), [], ("commit".toList)⟩
        ("sha2".toList) =
      some ⟨cfgV.PRE ++ formatVersion ⟨1, 4, 2⟩ ++ cfgV.SUF,
        ("sha2".toList), [], ("commit".toList)⟩ :=
  ⟨(C8_bump_arithmetic.1 ⟨1, 4, 2⟩).trans (by decide),
    (C8_bump_arithmetic.2.2.2 cfgV
        ⟨("v1.4.2".toList), ("c0".toList), [], ("commit".toList)⟩
        ("sha2".toList) ⟨1, 4, 2⟩ (by decide)).2.2.2
      BumpStrategy.skip (by decide) (by decide) (by decide)⟩

/-- Claim C9: for every version and wrapper, parsing the formatted tag
body after stripping the same wrapper yields the original version; and a
parse succeeds only on a residual made of three dot-separated
non-negative integer components (so any other residual fails). -/
theorem C9_parse_format_roundtrip :
    (∀ (v : Version) (p suf : Str),
      parseVersion (dropSuf suf (dropPre p (p ++ formatVersion v ++ suf))) =
        some v) ∧
    (∀ (s : Str) (w : Version), parseVersion s = some w →
      ∃ a b c, s = a ++ '.' :: (b ++ '.' :: c) ∧ isIntChars a = true ∧
        isIntChars b = true ∧ isIntChars c = true) :=
  ⟨fun v p suf => parseVersion_strip_wrap p suf v, parseVersion_some_shape⟩

/-- Witness for C9: round trip at `7.0.12` with wrapper `v`/`-rc`, and
the decomposition of the parseable residual `1.4.2`. -/
theorem C9_parse_format_roundtrip_witness :
    parseVersion
        (dropSuf ("-rc".toList)
          (dropPre ("v".toList)
            (("v".toList) ++ formatVersion ⟨7, 0, 12⟩ ++ ("-rc".toList)))) =
      some ⟨7, 0, 12⟩ ∧
    ∃ a b c, ("1.4.2".toList) = a ++ '.' :: (b ++ '.' :: c) ∧
      isIntChars a = true ∧ isIntChars b = true ∧ isIntChars c = true :=
  ⟨C9_parse_format_roundtrip.1 ⟨7, 0, 12⟩ ("v".toList) ("-rc".toList),
    C9_parse_format_roundtrip.2 ("1.4.2".toList) ⟨1, 4, 2⟩ (by decide)⟩

/- ## Case sensitivity of the marker scan (claim C2) -/

/-- ASCII lowercasing of one character, as Python `str.lower` on ASCII. -/
def lowerChar (c : Char) : Char :=
  if 'A' ≤ c ∧ c ≤ 'Z' then Char.ofNat (c.toNat + 32) else c

/-- ASCII lowercasing of a string. -/
def lowerStr (s : Str) : Str := s.map lowerChar

/-- Counterexample to claim C2: the commit message `do it [#SKIP]`
contains the skip marker case-insensitively (its lowercasing contains
`[#skip]`), yet with default strategy MAJOR the scan returns MAJOR, not
SKIP — the code lowercases only the marker template, never the message,
so the check is case-sensitive on the message. -/
theorem C2_counterexample_case_sensitivity :
    containsSub (markerFor BumpStrategy.skip)
      (lowerStr ("do it [#SKIP]".toList)) = true ∧
    check_bump_strategy_since_last_tag
      { cfgV with DEFAULT_BUMP_STRATEGY := BumpStrategy.major }
      [("do it [#SKIP]".toList)] = BumpStrategy.major := by decide

/-- Claim C2 as amended: the scan checks each commit message for the
lowercase bracketed markers only (case-sensitively); for a sequence
whose first marker-bearing commit carries exactly one strategy's
lowercase marker it returns that strategy; for a sequence with no
lowercase marker it returns the configured default — in particular it
returns SKIP when a commit contains the literal `[#skip]` even when the
default is MAJOR. -/
theorem C2_amended_marker_scan (cfg : Configuration) :
    (∀ msgs : List Str,
      (∀ m ∈ msgs, ∀ s, containsSub (markerFor s) m = false) →
      check_bump_strategy_since_last_tag cfg msgs =
        cfg.DEFAULT_BUMP_STRATEGY) ∧
    (∀ (pre : List Str) (m : Str) (post : List Str) (s : BumpStrategy),
      (∀ m' ∈ pre, ∀ s', containsSub (markerFor s') m' = false) →
      containsSub (markerFor s) m = true →
      (∀ s', s' ≠ s → containsSub (markerFor s') m = false) →
      check_bump_strategy_since_last_tag cfg (pre ++ m :: post) = s) ∧
    check_bump_strategy_since_last_tag
      { cfgV with DEFAULT_BUMP_STRATEGY := BumpStrategy.major }
      [("do it [#skip]".toList)] = BumpStrategy.skip := by
  refine ⟨check_eq_default cfg, check_eq_of_first_marked cfg, ?_⟩
  decide

/-- Witness for C2 (amended): `[#minor]` in the second commit after an
unmarked first commit selects MINOR; a marker-free window falls back to
the default PATCH. -/
theorem C2_amended_marker_scan_witness :
    check_bump_strategy_since_last_tag cfgV
      (([("docs update".toList)] : List Str) ++
        ("add feature [#minor]".toList) :: [("later [#major]".toList)]) =
      BumpStrategy.minor ∧
    check_bump_strategy_since_last_tag
      { cfgV with DEFAULT_BUMP_STRATEGY := BumpStrategy.patch }
      [("docs update".toList)] = BumpStrategy.patch :=
  ⟨(C2_amended_marker_scan cfgV).2.1 [("docs update".toList)]
      ("add feature [#minor]".toList) [("later [#major]".toList)]
      BumpStrategy.minor (by decide) (by decide) (by decide),
    (C2_amended_marker_scan
        { cfgV with DEFAULT_BUMP_STRATEGY := BumpStrategy.patch }).1
      [("docs update".toList)] (by decide)⟩

/- ## First-match versus last-match tag scans (claim C7) -/

theorem find?_append_of_none {α : Type} (p : α → Bool) (l₁ l₂ : List α)
    (h : ∀ x ∈ l₁, p x = false) : (l₁ ++ l₂).find? p = l₂.find? p := by
  induction l₁ with
  | nil => rfl
  | cons a l ih =>
    have ha : p a = false := h a (by simp)
    rw [List.cons_append, List.find?_cons_of_neg _ (by simp [ha])]
    exact ih (fun x hx => h x (by simp [hx]))

/-- Claim C7: `get_latest_major_tag` scans for tags matching the wrapper
whose stripped middle does not parse as a full version and — having no
`break` — returns the LAST iterated match, while `get_latest_tag` breaks
on the FIRST match; when no tag matches, the major scan falls back to
the synthetic `PREFIX + "0" + SUFFIX` tag pointing at HEAD. -/
theorem C7_major_scan_last_match (cfg : Configuration)
    (repoTags : List RemoteTag) (headSha : Str) :
    (∀ (l₁ : List RemoteTag) (t : RemoteTag) (l₂ : List RemoteTag),
      repoTags = l₁ ++ t :: l₂ → majorTagMatch cfg t.name = true →
      (∀ u ∈ l₂, majorTagMatch cfg u.name = false) →
      get_latest_major_tag cfg repoTags headSha =
        ⟨t.name, t.commitSha, t.message, ("commit".toList)⟩) ∧
    ((∀ t ∈ repoTags, majorTagMatch cfg t.name = false) →
      get_latest_major_tag cfg repoTags headSha =
        ⟨cfg.PRE ++ ("0".toList) ++ cfg.SUF, headSha, [],
          ("commit".toList)⟩) ∧
    (∀ (l₁ : List RemoteTag) (t : RemoteTag) (l₂ : List RemoteTag),
      repoTags = l₁ ++ t :: l₂ → versionTagMatch cfg t.name = true →
      (∀ u ∈ l₁, versionTagMatch cfg u.name = false) →
      get_latest_tag cfg repoTags headSha =
        ⟨t.name, t.commitSha, t.message, ("commit".toList)⟩) := by
  refine ⟨?_, ?_, ?_⟩
  · intro l₁ t l₂ hsplit ht hl₂
    subst hsplit
    unfold get_latest_major_tag
    rw [List.foldl_append]
    have hstep : (t :: l₂).foldl
        (fun acc u => if majorTagMatch cfg u.name then
          some (⟨u.name, u.commitSha, u.message, ("commit".toList)⟩ : Tag)
          else acc)
        (l₁.foldl (fun acc u => if majorTagMatch cfg u.name then
          some (⟨u.name, u.commitSha, u.message, ("commit".toList)⟩ : Tag)
          else acc) none) =
        some ⟨t.name, t.commitSha, t.message, ("commit".toList)⟩ := by
      rw [List.foldl_cons, if_pos ht]
      exact foldl_overwrite_no_match
        (fun u => majorTagMatch cfg u.name)
        (fun u =>
          (⟨u.name, u.commitSha, u.message, ("commit".toList)⟩ : Tag))
        l₂ _ hl₂
    rw [hstep]
  · intro hall
    unfold get_latest_major_tag
    have hnone : repoTags.foldl
        (fun acc u => if majorTagMatch cfg u.name then
          some (⟨u.name, u.commitSha, u.message, ("commit".toList)⟩ : Tag)
          else acc) none = none :=
      foldl_overwrite_no_match
        (fun u => majorTagMatch cfg u.name)
        (fun u =>
          (⟨u.name, u.commitSha, u.message, ("commit".toList)⟩ : Tag))
        repoTags none hall
    rw [hnone]
  · intro l₁ t l₂ hsplit ht hl₁
    subst hsplit
    unfold get_latest_tag
    have hfind : (l₁ ++ t :: l₂).find?
        (fun u => versionTagMatch cfg u.name) = some t := by
      rw [find?_append_of_none _ l₁ _ hl₁,
        List.find?_cons_of_pos _ (by simp [ht])]
    rw [hfind]

/-- Witness for C7: with major-pointer tags `v1` then `v2` listed in that
order the major scan returns the later `v2`, the version scan over
`v1.0.0` then `v2.0.0` returns the earlier `v1.0.0`, and an all-semver
list falls back to the synthetic `v0` tag at HEAD. -/
theorem C7_major_scan_last_match_witness :
    get_latest_major_tag cfgV
      [⟨("v1".toList), ("c1".toList), []⟩, ⟨("v2".toList), ("c2".toList), []⟩]
      ("h7".toList) =
      ⟨("v2".toList), ("c2".toList), [], ("commit".toList)⟩ ∧
    get_latest_major_tag cfgV [⟨("v1.0.0".toList), ("c1".toList), []⟩]
      ("h8".toList) =
      ⟨cfgV.PRE ++ ("0".toList) ++ cfgV.SUF, ("h8".toList), [],
        ("commit".toList)⟩ ∧
    get_latest_tag cfgV
      [⟨("v1.0.0".toList), ("c1".toList), []⟩,
        ⟨("v2.0.0".toList), ("c2".toList), []⟩] ("h9".toList) =
      ⟨("v1.0.0".toList), ("c1".toList), [], ("commit".toList)⟩ :=
  ⟨(C7_major_scan_last_match cfgV
      [⟨("v1".toList), ("c1".toList), []⟩, ⟨("v2".toList), ("c2".toList), []⟩]
      ("h7".toList)).1
      [⟨("v1".toList), ("c1".toList), []⟩] ⟨("v2".toList), ("c2".toList), []⟩
      [] (by decide) (by decide) (by decide),
    (C7_major_scan_last_match cfgV [⟨("v1.0.0".toList), ("c1".toList), []⟩]
      ("h8".toList)).2.1 (by decide),
    (C7_major_scan_last_match cfgV
      [⟨("v1.0.0".toList), ("c1".toList), []⟩,
        ⟨("v2.0.0".toList), ("c2".toList), []⟩] ("h9".toList)).2.2
      [] ⟨("v1.0.0".toList), ("c1".toList), []⟩
      [⟨("v2.0.0".toList), ("c2".toList), []⟩] (by decide) (by decide)
      (by decide)⟩

/- ## Pipeline branch analysis -/

/-- The resolver's configuration mutation touches only the default bump
strategy; every other field is preserved. -/
theorem get_latest_preserves (cfg : Configuration)
    (repoTags : List RemoteTag) (headSha : Str) :
    (get_latest_tag_or_default cfg repoTags headSha).2.BIND_TO_MAJOR =
        cfg.BIND_TO_MAJOR ∧
    (get_latest_tag_or_default cfg repoTags headSha).2.DRY_RUN =
        cfg.DRY_RUN ∧
    (get_latest_tag_or_default cfg repoTags headSha).2.DEFAULT_BRANCH =
        cfg.DEFAULT_BRANCH ∧
    (get_latest_tag_or_default cfg repoTags headSha).2.PRE = cfg.PRE ∧
    (get_latest_tag_or_default cfg repoTags headSha).2.SUF = cfg.SUF := by
  unfold get_latest_tag_or_default
  cases repoTags.find? (fun t => versionTagMatch cfg t.name) <;> simp

/-- Claim C6: when `DRY_RUN` is true (and a tag is actually computed: the
run is on the default branch, the selected strategy is not SKIP, and the
current tag parses), every ref-mutating side effect is skipped but the
tag-object creation call still occurs: the effect trace is exactly the
one `create_git_tag` call, which is not a ref mutation. -/
theorem C6_dry_run_still_creates_tag_object (cfg : Configuration)
    (refName : Str) (repoTags : List RemoteTag)
    (headSha githubSha tagObjSha : Str) (msgs : List Str)
    (strat : BumpStrategy) (new_tag : Tag)
    (hbr : refName = cfg.DEFAULT_BRANCH)
    (hsel : selectedStrategy cfg repoTags headSha msgs = strat)
    (hns : strat ≠ BumpStrategy.skip)
    (hdry : cfg.DRY_RUN = true)
    (hbump : bump_tag_version
      (get_latest_tag_or_default cfg repoTags headSha).2 strat
      (get_latest_tag_or_default cfg repoTags headSha).1 githubSha =
      some new_tag) :
    runScript cfg refName repoTags headSha githubSha tagObjSha msgs =
      some [Effect.createTagObject new_tag.name new_tag.commit] ∧
    (∀ e ∈ [Effect.createTagObject new_tag.name new_tag.commit],
      (∀ n t, e ≠ Effect.createRef n t) ∧ ∀ n, e ≠ Effect.deleteRef n) := by
  constructor
  · unfold runScript
    rw [if_neg (by simp [hbr])]
    have hsel' : check_bump_strategy_since_last_tag
        (get_latest_tag_or_default cfg repoTags headSha).2 msgs = strat :=
      hsel
    have hdry' : (get_latest_tag_or_default cfg repoTags headSha).2.DRY_RUN =
        true :=
      (get_latest_preserves cfg repoTags headSha).2.1.trans hdry
    simp only [hsel', if_neg hns, hbump, hdry', if_true]
  · intro e he
    simp only [List.mem_singleton] at he
    subst he
    exact ⟨fun n t => by simp, fun n => by simp⟩

/-- Witness for C6: Scenario-D inputs but with `DRY_RUN` — current tag
`v1.4.2`, a `[#patch]` commit, existing major tag `v1` — produce exactly
the one tag-object creation for `v1.4.3` and no ref mutation. -/
theorem C6_dry_run_still_creates_tag_object_witness :
    runScript { cfgV with DRY_RUN := true } ("main".toList)
      [⟨("v1.4.2".toList), ("c0".toList), []⟩,
        ⟨("v1".toList), ("c1".toList), []⟩]
      ("h0".toList) ("g0".toList) ("t0".toList)
      [("[#patch] fix".toList)] =
      some [Effect.createTagObject ("v1.4.3".toList) ("g0".toList)] ∧
    (∀ e ∈ [Effect.createTagObject ("v1.4.3".toList) ("g0".toList)],
      (∀ n t, e ≠ Effect.createRef n t) ∧ ∀ n, e ≠ Effect.deleteRef n) := by
  have h := C6_dry_run_still_creates_tag_object
    { cfgV with DRY_RUN := true } ("main".toList)
    [⟨("v1.4.2".toList), ("c0".toList), []⟩,
      ⟨("v1".toList), ("c1".toList), []⟩]
    ("h0".toList) ("g0".toList) ("t0".toList) [("[#patch] fix".toList)]
    BumpStrategy.patch
    ⟨("v1.4.3".toList), ("g0".toList), [], ("commit".toList)⟩
    rfl (by decide) (by decide) rfl (by decide)
  exact h

/-- Claim C5: with major binding on and dry-run off, for any selected
strategy other than MAJOR (and other than SKIP, so the run reaches the
reconciliation), every listed major-pointer candidate — wrapper match,
name different from the current version tag, body not a valid semver —
is deleted and immediately recreated under the same name pointing at the
new (`GITHUB_SHA`) commit. -/
theorem C5_repoint_deletes_and_recreates (cfg : Configuration)
    (refName : Str) (repoTags : List RemoteTag)
    (headSha githubSha tagObjSha : Str) (msgs : List Str)
    (strat : BumpStrategy) (new_tag : Tag) (t : RemoteTag)
    (hbr : refName = cfg.DEFAULT_BRANCH)
    (hsel : selectedStrategy cfg repoTags headSha msgs = strat)
    (hns : strat ≠ BumpStrategy.skip)
    (hnm : strat ≠ BumpStrategy.major)
    (hdry : cfg.DRY_RUN = false)
    (hbind : cfg.BIND_TO_MAJOR = true)
    (hbump : bump_tag_version
      (get_latest_tag_or_default cfg repoTags headSha).2 strat
      (get_latest_tag_or_default cfg repoTags headSha).1 githubSha =
      some new_tag)
    (ht : t ∈ repoTags)
    (hcand : repointCandidate
      (get_latest_tag_or_default cfg repoTags headSha).2
      (get_latest_tag_or_default cfg repoTags headSha).1.name t = true) :
    ∃ l₁ l₂,
      runScript cfg refName repoTags headSha githubSha tagObjSha msgs =
        some (l₁ ++
          [Effect.deleteRef t.name, Effect.createRef t.name githubSha] ++
          l₂) := by
  have hdry' : (get_latest_tag_or_default cfg repoTags headSha).2.DRY_RUN =
      false :=
    (get_latest_preserves cfg repoTags headSha).2.1.trans hdry
  have hbind' :
      (get_latest_tag_or_default cfg repoTags headSha).2.BIND_TO_MAJOR =
      true :=
    (get_latest_preserves cfg repoTags headSha).1.trans hbind
  have hsel' : check_bump_strategy_since_last_tag
      (get_latest_tag_or_default cfg repoTags headSha).2 msgs = strat :=
    hsel
  have hmem : t ∈ repoTags.filter
      (repointCandidate (get_latest_tag_or_default cfg repoTags headSha).2
        (get_latest_tag_or_default cfg repoTags headSha).1.name) :=
    List.mem_filter.mpr ⟨ht, hcand⟩
  obtain ⟨s, u, hsplit⟩ := List.append_of_mem hmem
  refine ⟨[Effect.createTagObject new_tag.name new_tag.commit,
      Effect.createRef new_tag.name tagObjSha] ++
      s.flatMap (fun x =>
        [Effect.deleteRef x.name, Effect.createRef x.name githubSha]),
    u.flatMap (fun x =>
      [Effect.deleteRef x.name, Effect.createRef x.name githubSha]), ?_⟩
  unfold runScript
  rw [if_neg (by simp [hbr])]
  simp only [hsel', if_neg hns, hbump, hdry', Bool.false_eq_true, if_false,
    hbind', if_true, if_neg hnm, hsplit, List.flatMap_append,
    List.flatMap_cons]
  simp [List.append_assoc]
  intro hmaj
  exact absurd hmaj hnm

/-- Witness for C5 (Scenario D): current tag `v1.4.2`, a `[#patch]`
commit, existing major tag `v1`, binding on, dry-run off — the trace
contains `deleteRef v1` immediately followed by `createRef v1` at the
new commit. -/
theorem C5_repoint_deletes_and_recreates_witness :
    ∃ l₁ l₂,
      runScript cfgV ("main".toList)
        [⟨("v1.4.2".toList), ("c0".toList), []⟩,
          ⟨("v1".toList), ("c1".toList), []⟩]
        ("h0".toList) ("g0".toList) ("t0".toList)
        [("[#patch] fix".toList)] =
        some (l₁ ++
          [Effect.deleteRef ("v1".toList),
            Effect.createRef ("v1".toList) ("g0".toList)] ++ l₂) :=
  C5_repoint_deletes_and_recreates cfgV ("main".toList)
    [⟨("v1.4.2".toList), ("c0".toList), []⟩,
      ⟨("v1".toList), ("c1".toList), []⟩]
    ("h0".toList) ("g0".toList) ("t0".toList) [("[#patch] fix".toList)]
    BumpStrategy.patch
    ⟨("v1.4.3".toList), ("g0".toList), [], ("commit".toList)⟩
    ⟨("v1".toList), ("c1".toList), []⟩
    rfl (by decide) (by decide) (by decide) rfl rfl (by decide) (by decide)
    (by decide)

/- ## Major-pointer creation on a MAJOR bump (claim C1) -/

/-- Counterexample to claim C1 (Scenario C): current tag `v1.4.2`,
strategy MAJOR, binding on. The version tag `v2.0.0` is created, but the
major-pointer tag actually created is `v3` — `main.py` adds 1 to the
major component of the ALREADY bumped version — and no effect in the
trace creates or touches a tag named `v2`. -/
theorem C1_counterexample_major_pointer_name :
    runScript cfgV ("main".toList)
      [⟨("v1.4.2".toList), ("c0".toList), []⟩,
        ⟨("v1".toList), ("c1".toList), []⟩]
      ("h0".toList) ("g0".toList) ("t0".toList)
      [("release [#major]".toList)] =
      some [Effect.createTagObject ("v2.0.0".toList) ("g0".toList),
        Effect.createRef ("v2.0.0".toList) ("t0".toList),
        Effect.createTagObject ("v3".toList) ("g0".toList),
        Effect.createRef ("v3".toList) ("g0".toList)] ∧
    ([Effect.createTagObject ("v2.0.0".toList) ("g0".toList),
        Effect.createRef ("v2.0.0".toList) ("t0".toList),
        Effect.createTagObject ("v3".toList) ("g0".toList),
        Effect.createRef ("v3".toList) ("g0".toList)].all (fun e =>
      match e with
      | Effect.createTagObject n _ => n != ("v2".toList)
      | Effect.createRef n _ => n != ("v2".toList)
      | Effect.deleteRef n => n != ("v2".toList))) = true := by decide

/-- Claim C1 as amended: when the selected strategy is MAJOR and binding
is on (dry-run off, run on the default branch, current tag parseable),
the new major-pointer tag name is derived from the already-bumped new
version tag's major component PLUS ONE (current tag `v1.4.2` yields
version tag `v2.0.0` and major-pointer tag `v3`), and the previous
major-pointer tag is left untouched (the trace contains no ref
deletion). -/
theorem C1_amended_major_pointer_plus_one (cfg : Configuration)
    (refName : Str) (repoTags : List RemoteTag)
    (headSha githubSha tagObjSha : Str) (msgs : List Str) (v : Version)
    (hbr : refName = cfg.DEFAULT_BRANCH)
    (hsel : selectedStrategy cfg repoTags headSha msgs =
      BumpStrategy.major)
    (hdry : cfg.DRY_RUN = false)
    (hbind : cfg.BIND_TO_MAJOR = true)
    (hname : (get_latest_tag_or_default cfg repoTags headSha).1.name =
      cfg.PRE ++ formatVersion v ++ cfg.SUF) :
    runScript cfg refName repoTags headSha githubSha tagObjSha msgs =
      some [Effect.createTagObject
          (cfg.PRE ++ formatVersion ⟨v.major + 1, 0, 0⟩ ++ cfg.SUF)
          githubSha,
        Effect.createRef
          (cfg.PRE ++ formatVersion ⟨v.major + 1, 0, 0⟩ ++ cfg.SUF)
          tagObjSha,
        Effect.createTagObject
          (cfg.PRE ++ natChars (v.major + 1 + 1) ++ cfg.SUF) githubSha,
        Effect.createRef
          (cfg.PRE ++ natChars (v.major + 1 + 1) ++ cfg.SUF) githubSha] ∧
    (∀ e ∈ [Effect.createTagObject
          (cfg.PRE ++ formatVersion ⟨v.major + 1, 0, 0⟩ ++ cfg.SUF)
          githubSha,
        Effect.createRef
          (cfg.PRE ++ formatVersion ⟨v.major + 1, 0, 0⟩ ++ cfg.SUF)
          tagObjSha,
        Effect.createTagObject
          (cfg.PRE ++ natChars (v.major + 1 + 1) ++ cfg.SUF) githubSha,
        Effect.createRef
          (cfg.PRE ++ natChars (v.major + 1 + 1) ++ cfg.SUF) githubSha],
      ∀ n, e ≠ Effect.deleteRef n) := by
  have hpre := get_latest_preserves cfg repoTags headSha
  have hP : (get_latest_tag_or_default cfg repoTags headSha).2.PRE =
      cfg.PRE := hpre.2.2.2.1
  have hS : (get_latest_tag_or_default cfg repoTags headSha).2.SUF =
      cfg.SUF := hpre.2.2.2.2
  have hdry' : (get_latest_tag_or_default cfg repoTags headSha).2.DRY_RUN =
      false := hpre.2.1.trans hdry
  have hbind' :
      (get_latest_tag_or_default cfg repoTags headSha).2.BIND_TO_MAJOR =
      true := hpre.1.trans hbind
  have hsel' : check_bump_strategy_since_last_tag
      (get_latest_tag_or_default cfg repoTags headSha).2 msgs =
      BumpStrategy.major := hsel
  have hbump : bump_tag_version
      (get_latest_tag_or_default cfg repoTags headSha).2 BumpStrategy.major
      (get_latest_tag_or_default cfg repoTags headSha).1 githubSha =
      some ⟨cfg.PRE ++ formatVersion ⟨v.major + 1, 0, 0⟩ ++ cfg.SUF,
        githubSha, [], ("commit".toList)⟩ := by
    unfold bump_tag_version
    rw [hP, hS, hname, strip_wrap, parseVersion_formatVersion]
    simp [Version.bump_major]
  constructor
  · unfold runScript
    rw [if_neg (by simp [hbr])]
    simp only [hsel', hbump, hdry', Bool.false_eq_true, if_false, hbind',
      if_true]
    rw [if_neg (by decide)]
    rw [if_neg (by simp)]
    rw [hP, hS, strip_wrap, parseVersion_formatVersion]
    simp
  · intro e he n
    simp only [List.mem_cons, List.not_mem_nil, or_false] at he
    rcases he with he | he | he | he <;> subst he <;> simp

/-- Witness for C1 (amended, Scenario C): current tag `v1.4.2` with a
`[#major]` commit yields version tag `v2.0.0` and major-pointer tag
`v3`, with no deletion in the trace. -/
theorem C1_amended_major_pointer_plus_one_witness :
    runScript cfgV ("main".toList)
      [⟨("v1.4.2".toList), ("c0".toList), []⟩,
        ⟨("v1".toList), ("c1".toList), []⟩]
      ("h0".toList) ("g0".toList) ("t0".toList)
      [("release [#major]".toList)] =
      some [Effect.createTagObject
          (cfgV.PRE ++ formatVersion ⟨2, 0, 0⟩ ++ cfgV.SUF) ("g0".toList),
        Effect.createRef
          (cfgV.PRE ++ formatVersion ⟨2, 0, 0⟩ ++ cfgV.SUF) ("t0".toList),
        Effect.createTagObject
          (cfgV.PRE ++ natChars 3 ++ cfgV.SUF) ("g0".toList),
        Effect.createRef
          (cfgV.PRE ++ natChars 3 ++ cfgV.SUF) ("g0".toList)] ∧
    (∀ e ∈ [Effect.createTagObject
          (cfgV.PRE ++ formatVersion ⟨2, 0, 0⟩ ++ cfgV.SUF) ("g0".toList),
        Effect.createRef
          (cfgV.PRE ++ formatVersion ⟨2, 0, 0⟩ ++ cfgV.SUF) ("t0".toList),
        Effect.createTagObject
          (cfgV.PRE ++ natChars 3 ++ cfgV.SUF) ("g0".toList),
        Effect.createRef
          (cfgV.PRE ++ natChars 3 ++ cfgV.SUF) ("g0".toList)],
      ∀ n, e ≠ Effect.deleteRef n) :=
  C1_amended_major_pointer_plus_one cfgV ("main".toList)
    [⟨("v1.4.2".toList), ("c0".toList), []⟩,
      ⟨("v1".toList), ("c1".toList), []⟩]
    ("h0".toList) ("g0".toList) ("t0".toList)
    [("release [#major]".toList)] ⟨1, 4, 2⟩
    rfl (by decide) rfl rfl (by decide)

/-- When the run proceeds (default branch, strategy neither SKIP nor
MAJOR) the first effect of the trace is always the version tag-object
creation. -/
theorem runScript_head_of_not_major (cfg : Configuration) (refName : Str)
    (repoTags : List RemoteTag) (headSha githubSha tagObjSha : Str)
    (msgs : List Str) (strat : BumpStrategy) (new_tag : Tag)
    (hbr : refName = cfg.DEFAULT_BRANCH)
    (hsel : selectedStrategy cfg repoTags headSha msgs = strat)
    (hns : strat ≠ BumpStrategy.skip)
    (hnm : strat ≠ BumpStrategy.major)
    (hbump : bump_tag_version
      (get_latest_tag_or_default cfg repoTags headSha).2 strat
      (get_latest_tag_or_default cfg repoTags headSha).1 githubSha =
      some new_tag) :
    ∃ rest,
      runScript cfg refName repoTags headSha githubSha tagObjSha msgs =
        some (Effect.createTagObject new_tag.name new_tag.commit :: rest) := by
  have hsel' : check_bump_strategy_since_last_tag
      (get_latest_tag_or_default cfg repoTags headSha).2 msgs = strat :=
    hsel
  unfold runScript
  rw [if_neg (by simp [hbr])]
  simp only [hsel', if_neg hns, hbump]
  by_cases hdry :
      (get_latest_tag_or_default cfg repoTags headSha).2.DRY_RUN = true
  · exact ⟨[], by simp [hdry]⟩
  · rw [Bool.not_eq_true] at hdry
    by_cases hbind :
        (get_latest_tag_or_default cfg repoTags headSha).2.BIND_TO_MAJOR =
        true
    · refine ⟨Effect.createRef new_tag.name tagObjSha ::
        (repoTags.filter
          (repointCandidate
            (get_latest_tag_or_default cfg repoTags headSha).2
            (get_latest_tag_or_default cfg repoTags headSha).1.name)).flatMap
          (fun t =>
            [Effect.deleteRef t.name,
              Effect.createRef t.name githubSha]), ?_⟩
      simp [hdry, hbind, if_neg hnm]
    · rw [Bool.not_eq_true] at hbind
      exact ⟨[Effect.createRef new_tag.name tagObjSha],
        by simp [hdry, hbind]⟩

/-- Claim C10: when no semver tag matching the wrapper exists, the
resolver mutates the shared configuration's default bump strategy to
PATCH; hence on a first run with no commit markers a
`PREFIX + "0.0.1" + SUFFIX` tag is created even though the configured
default strategy is SKIP; but a commit whose only marker is `[#skip]`
(and with no earlier marked commit) still selects SKIP and suppresses
all tag operations. -/
theorem C10_first_run_overrides_skip_default (cfg : Configuration)
    (refName : Str) (repoTags : List RemoteTag)
    (headSha githubSha tagObjSha : Str) (msgs : List Str)
    (hnone : ∀ t ∈ repoTags, versionTagMatch cfg t.name = false)
    (_hdef : cfg.DEFAULT_BUMP_STRATEGY = BumpStrategy.skip)
    (hbr : refName = cfg.DEFAULT_BRANCH) :
    (get_latest_tag_or_default cfg repoTags
      headSha).2.DEFAULT_BUMP_STRATEGY = BumpStrategy.patch ∧
    ((∀ m ∈ msgs, ∀ s, containsSub (markerFor s) m = false) →
      selectedStrategy cfg repoTags headSha msgs = BumpStrategy.patch ∧
      ∃ rest,
        runScript cfg refName repoTags headSha githubSha tagObjSha msgs =
          some (Effect.createTagObject
            (cfg.PRE ++ ("0.0.1".toList) ++ cfg.SUF) githubSha :: rest)) ∧
    (∀ (pre : List Str) (m : Str) (post : List Str),
      msgs = pre ++ m :: post →
      (∀ m' ∈ pre, ∀ s', containsSub (markerFor s') m' = false) →
      containsSub (markerFor BumpStrategy.skip) m = true →
      (∀ s', s' ≠ BumpStrategy.skip →
        containsSub (markerFor s') m = false) →
      runScript cfg refName repoTags headSha githubSha tagObjSha msgs =
        some []) := by
  have hfind : repoTags.find? (fun t => versionTagMatch cfg t.name) =
      none := by
    rw [List.find?_eq_none]
    intro t ht
    simp [hnone t ht]
  have hmut : (get_latest_tag_or_default cfg repoTags
      headSha).2.DEFAULT_BUMP_STRATEGY = BumpStrategy.patch := by
    unfold get_latest_tag_or_default
    rw [hfind]
  have hname : (get_latest_tag_or_default cfg repoTags headSha).1.name =
      cfg.PRE ++ ("0.0.0".toList) ++ cfg.SUF := by
    unfold get_latest_tag_or_default
    rw [hfind]
  have hpre := get_latest_preserves cfg repoTags headSha
  refine ⟨hmut, ?_, ?_⟩
  · intro hmk
    have hsel : selectedStrategy cfg repoTags headSha msgs =
        BumpStrategy.patch := by
      unfold selectedStrategy
      rw [check_eq_default _ msgs hmk, hmut]
    refine ⟨hsel, ?_⟩
    have h000 : ("0.0.0".toList : Str) = formatVersion ⟨0, 0, 0⟩ := by
      decide
    have h001 : ("0.0.1".toList : Str) = formatVersion ⟨0, 0, 1⟩ := by
      decide
    have hbump : bump_tag_version
        (get_latest_tag_or_default cfg repoTags headSha).2
        BumpStrategy.patch
        (get_latest_tag_or_default cfg repoTags headSha).1 githubSha =
        some ⟨cfg.PRE ++ ("0.0.1".toList) ++ cfg.SUF, githubSha, [],
          ("commit".toList)⟩ := by
      unfold bump_tag_version
      rw [hpre.2.2.2.1, hpre.2.2.2.2, hname, h000, strip_wrap,
        parseVersion_formatVersion]
      simp only [Version.bump_patch]
      rfl
    obtain ⟨rest, hrun⟩ := runScript_head_of_not_major cfg refName
      repoTags headSha githubSha tagObjSha msgs BumpStrategy.patch
      ⟨cfg.PRE ++ ("0.0.1".toList) ++ cfg.SUF, githubSha, [],
        ("commit".toList)⟩
      hbr hsel (by decide) (by decide) hbump
    exact ⟨rest, hrun⟩
  · intro pre m post hmsgs hpre' hskipm hother
    have hsel : selectedStrategy cfg repoTags headSha msgs =
        BumpStrategy.skip := by
      unfold selectedStrategy
      rw [hmsgs]
      exact check_eq_of_first_marked _ pre m post BumpStrategy.skip hpre'
        hskipm hother
    exact runScript_of_skip cfg refName repoTags headSha githubSha
      tagObjSha msgs hsel

/-- Witness for C10: empty tag list, default SKIP. A marker-free run
creates `v0.0.1`; a `[#skip]`-marked run performs nothing. -/
theorem C10_first_run_overrides_skip_default_witness :
    (get_latest_tag_or_default cfgV [] ("h0".toList)).2.DEFAULT_BUMP_STRATEGY
        = BumpStrategy.patch ∧
    (selectedStrategy cfgV [] ("h0".toList) [("docs".toList)] =
        BumpStrategy.patch ∧
      ∃ rest,
        runScript cfgV ("main".toList) [] ("h0".toList) ("g0".toList)
          ("t0".toList) [("docs".toList)] =
          some (Effect.createTagObject
            (cfgV.PRE ++ ("0.0.1".toList) ++ cfgV.SUF) ("g0".toList) ::
              rest)) ∧
    runScript cfgV ("main".toList) [] ("h0".toList) ("g0".toList)
        ("t0".toList) [("stop [#skip]".toList)] = some [] := by
  have h := C10_first_run_overrides_skip_default cfgV ("main".toList) []
    ("h0".toList) ("g0".toList) ("t0".toList) [("docs".toList)]
    (by decide) rfl rfl
  have h2 := C10_first_run_overrides_skip_default cfgV ("main".toList) []
    ("h0".toList) ("g0".toList) ("t0".toList) [("stop [#skip]".toList)]
    (by decide) rfl rfl
  exact ⟨h.1, h.2.1 (by decide),
    h2.2.2 [] ("stop [#skip]".toList) [] rfl (by decide) (by decide)
      (by decide)⟩
